import Mathlib

/-!
Shallow embedding of the lswasm host (litespeedtech/lswasm): the WASM module
manager (`wasm_module_manager.cc` / `wasm_module_manager.h`), the HTTP filter
context (`http_filter.h`), and the HTTP request pipeline of `main.cpp`.

Machine integers are modelled as `Nat` with an explicit `% 2^32` where 32-bit
overflow matters (the context-id counter, `sendLocalResponse` status codes).
The external proxy-wasm library (VM creation, `isFailed`, context creation,
guest execution) is modelled by explicit parameters: a `GuestBehaviour` gives
the observable effect of each guest callback on the host-visible stream
context, and boolean flags stand for the success of the external load /
initialize / start / configure steps.
-/

/-- Host-visible per-stream state captured by `lswasm::LsWasmContext`
(wasm_module_manager.h): the log buffer and the local-response record filled
in by the guest via the `sendLocalResponse` host callback. -/
structure StreamCtx where
  log : String
  has_local_response : Bool
  local_response_code : Nat
  local_response_body : String
  local_response_details : String
deriving DecidableEq

/-- A freshly constructed `LsWasmContext`: all fields default-initialized. -/
def freshStreamCtx : StreamCtx :=
  { log := "", has_local_response := false, local_response_code := 0,
    local_response_body := "", local_response_details := "" }

/-- `LsWasmContext::sendLocalResponse`: records the code/body/details and sets
the flag.  The response code is a `uint32_t` in the source, hence `% 2^32`. -/
def StreamCtx.sendLocalResponse (c : StreamCtx) (code : Nat) (body details : String) :
    StreamCtx :=
  { c with has_local_response := true, local_response_code := code % 2^32,
           local_response_body := body, local_response_details := details }

/-- `LsWasmContext::log`: appends the message and a newline to the log buffer. -/
def StreamCtx.logAppend (c : StreamCtx) (message : String) : StreamCtx :=
  { c with log := c.log ++ message ++ "\n" }

/-- `LsWasmContext::resetLocalResponse`: clears the local-response record
(the log buffer is not cleared). -/
def StreamCtx.resetLocalResponse (c : StreamCtx) : StreamCtx :=
  { c with has_local_response := false, local_response_code := 0,
           local_response_body := "", local_response_details := "" }

/-- `WasmModuleManager::ModuleState`: `failed` models
`!state.wasm || state.wasm->isFailed()` (an attribute of the external VM,
never written by the code under verification); `stream_context` is the single
mutable per-module stream-context slot, `stream_context_id` the id of the
request it was last created for. -/
structure ModuleState where
  failed : Bool
  stream_context : Option StreamCtx
  stream_context_id : Nat
deriving DecidableEq

/-- `ModuleState` of a freshly loaded module: live VM, no stream context. -/
def freshModuleState : ModuleState :=
  { failed := false, stream_context := none, stream_context_id := 0 }

/-- The manager's `std::map<std::string, ModuleState> modules_`, embedded as an
association list kept in key order by `insertSorted`. -/
abbrev Manager := List (String × ModuleState)

/-- `modules_.find(name)`: first (unique) entry with the given key. -/
def mfind : Manager → String → Option ModuleState
  | [], _ => none
  | (k, v) :: t, m => if k = m then some v else mfind t m

/-- In-place update of every entry carrying the given key (a `std::map` entry
is unique, so this is the map's `operator[]` assignment). -/
def setState (mgr : Manager) (m : String) (st : ModuleState) : Manager :=
  mgr.map (fun q => if q.1 = m then (m, st) else q)

/-- `std::map` insertion keeps keys sorted; new keys go before the first
larger key. -/
def insertSorted (mgr : Manager) (m : String) (st : ModuleState) : Manager :=
  match mgr with
  | [] => [(m, st)]
  | (k, v) :: t => if m < k then (m, st) :: (k, v) :: t
                   else (k, v) :: insertSorted t m st

/-- `WasmModuleManager::getLoadedModules`: key sequence in map order. -/
def getLoadedModules (mgr : Manager) : List String := mgr.map (fun q => q.1)

/-- `WasmModuleManager::getLocalResponseBody`: the captured body, or `""` when
the module is absent or has no stream context. -/
def getLocalResponseBody (mgr : Manager) (module_name : String) : String :=
  match mfind mgr module_name with
  | some st =>
    match st.stream_context with
    | some c => c.local_response_body
    | none => ""
  | none => ""

/-- `WasmModuleManager::getLocalResponseCode`: the captured code, or `0` when
the module is absent or has no stream context. -/
def getLocalResponseCode (mgr : Manager) (module_name : String) : Nat :=
  match mfind mgr module_name with
  | some st =>
    match st.stream_context with
    | some c => c.local_response_code
    | none => 0
  | none => 0

/-- `WasmModuleManager::hasLocalResponse`: the captured flag, or `false` when
the module is absent or has no stream context. -/
def hasLocalResponse (mgr : Manager) (module_name : String) : Bool :=
  match mfind mgr module_name with
  | some st =>
    match st.stream_context with
    | some c => c.has_local_response
    | none => false
  | none => false

/-- The seven phase identifiers `executeFilter` recognizes.  `done` serves both
the request-done and the response-done position of the pipeline (the host
invokes the single `onDone` callback at both points). -/
inductive Phase where
  | requestHeaders
  | requestBody
  | requestTrailers
  | responseHeaders
  | responseBody
  | responseTrailers
  | done
deriving DecidableEq

/-- The string-keyed phase dispatch of `WasmModuleManager::executeFilter`,
in the source's comparison order; unrecognized strings fall through. -/
def phaseOfString (s : String) : Option Phase :=
  if s = "onRequestHeaders" then some Phase.requestHeaders
  else if s = "onRequestBody" then some Phase.requestBody
  else if s = "onRequestTrailers" then some Phase.requestTrailers
  else if s = "onResponseHeaders" then some Phase.responseHeaders
  else if s = "onResponseBody" then some Phase.responseBody
  else if s = "onResponseTrailers" then some Phase.responseTrailers
  else if s = "onDone" then some Phase.done
  else none

/-- Outcome of one guest callback: normal return or a trap/exception caught at
the host boundary.  Either way the argument carries the stream-context state
as the guest's host-callbacks left it (those effects are already committed
when a later instruction traps). -/
inductive GuestStep where
  | ok (c : StreamCtx)
  | trap (c : StreamCtx)
deriving DecidableEq

/-- The external guest module behaviour, abstracted: whether the proxy-wasm
library can produce a stream context for a module (root-context lookup plus
`createContext`), and the effect of invoking the callback of a phase on the
current stream context.  The `Nat` argument is the buffer-length/word argument
the host passes (literally `0` at every call site; `onDone` takes no argument
and is recorded as `0`). -/
structure GuestBehaviour where
  ctxCreateOk : String → Bool
  callback : String → Phase → Nat → StreamCtx → GuestStep

/-- Observable host events of a dispatch: a guest callback invocation, the
caught-trap error report (`[WASM] Error executing ...`), and the explicit
unknown-phase diagnostic (`[WASM] Unknown phase: ...`). -/
inductive Event where
  | callback (module_name : String) (p : Phase) (arg : Nat)
  | execError (module_name : String) (p : Phase)
  | unknownPhase (s : String)
deriving DecidableEq

/-- Result of `WasmModuleManager::executeFilter`: the updated registry, the
boolean return value, and the events of the call. -/
structure ExecResult where
  mgr : Manager
  ok : Bool
  events : List Event
deriving DecidableEq

/-- The guarded call `state.stream_context->onX(...)` inside the `try` block of
`executeFilter`: invokes the guest callback on the module's current stream
context and catches a trap, turning it into a `false` return plus an error
report.  No-op when the slot is empty. -/
def invokeCallback (g : GuestBehaviour) (mgr : Manager) (module_name : String)
    (st : ModuleState) (p : Phase) : ExecResult :=
  match st.stream_context with
  | none => ⟨mgr, true, []⟩
  | some c =>
    match g.callback module_name p 0 c with
    | GuestStep.ok c' =>
      ⟨setState mgr module_name { st with stream_context := some c' }, true,
        [Event.callback module_name p 0]⟩
    | GuestStep.trap c' =>
      ⟨setState mgr module_name { st with stream_context := some c' }, false,
        [Event.callback module_name p 0, Event.execError module_name p]⟩

/-- `WasmModuleManager::executeFilter` (wasm_module_manager.cc): looks the
module up, rejects absent or failed VMs, and dispatches on the phase string.
Only `onRequestHeaders` (re)creates the stream context — and only when the
slot is empty or was created for a different request id; every other
recognized phase runs on the existing slot if any, and an unrecognized phase
logs the explicit unknown-phase diagnostic and returns `true`.  Context
creation failure (no root context / `createContext` returning null) is the
`ctxCreateOk` flag of the guest behaviour. -/
def executeFilter (g : GuestBehaviour) (mgr : Manager) (module_name : String)
    (context_id : Nat) (phase : String) : ExecResult :=
  match mfind mgr module_name with
  | none => ⟨mgr, false, []⟩
  | some st =>
    if st.failed then ⟨mgr, false, []⟩
    else
      match phaseOfString phase with
      | none => ⟨mgr, true, [Event.unknownPhase phase]⟩
      | some p =>
        if p = Phase.requestHeaders then
          if st.stream_context = none ∨ st.stream_context_id ≠ context_id then
            if g.ctxCreateOk module_name then
              invokeCallback g
                (setState mgr module_name
                  { st with
                    stream_context := some (StreamCtx.resetLocalResponse freshStreamCtx),
                    stream_context_id := context_id })
                module_name
                { st with
                  stream_context := some (StreamCtx.resetLocalResponse freshStreamCtx),
                  stream_context_id := context_id }
                Phase.requestHeaders
            else ⟨mgr, false, []⟩
          else invokeCallback g mgr module_name st Phase.requestHeaders
        else
          match st.stream_context with
          | some _ => invokeCallback g mgr module_name st p
          | none => ⟨mgr, true, []⟩

/-- Success flags of the external load pipeline inside
`WasmModuleManager::loadModuleFromMemory`: `wasm->load`, `wasm->initialize`,
`wasm->start` (root-context creation) and `wasm->configure`. -/
structure LoadOutcome where
  loadOk : Bool
  initOk : Bool
  startOk : Bool
  configureOk : Bool
deriving DecidableEq

/-- `WasmModuleManager::loadModuleFromMemory`: fails (leaving the registry
untouched) on a duplicate name or when any external step fails; otherwise
registers a fresh `ModuleState` under the name. -/
def loadModuleFromMemory (mgr : Manager) (module_name : String) (oc : LoadOutcome) :
    Manager × Bool :=
  if (mfind mgr module_name).isSome then (mgr, false)
  else if !oc.loadOk then (mgr, false)
  else if !oc.initOk then (mgr, false)
  else if !oc.startOk then (mgr, false)
  else if !oc.configureOk then (mgr, false)
  else (insertSorted mgr module_name freshModuleState, true)

/-- `HttpData` (http_filter.h): the parsed request plus the local-response
record the filter context copies out of the module manager. -/
structure HttpData where
  method : String
  path : String
  version : String
  request_headers : List (String × String)
  response_headers : List (String × String)
  request_body : String
  response_body : String
  has_local_response : Bool
  local_response_code : Nat
  local_response_body : String
deriving DecidableEq

/-- `HttpFilterContext::checkLocalResponse`: after a module's
`onRequestHeaders`, copies a pending local response into the request's
`HttpData`. -/
def checkLocalResponse (mgr : Manager) (module_name : String) (hd : HttpData) :
    HttpData :=
  if hasLocalResponse mgr module_name then
    { hd with has_local_response := true,
              local_response_code := getLocalResponseCode mgr module_name,
              local_response_body := getLocalResponseBody mgr module_name }
  else hd

/-- Whitespace as `std::istream`'s `operator>>` skips it (C `isspace`):
space, tab, newline, vertical tab, form feed, carriage return. -/
def isWSChar (c : Char) : Bool :=
  c == ' ' || c == '\t' || c == '\n' || c == Char.ofNat 11 || c == Char.ofNat 12 || c == '\r'

/-- One `iss >> token` extraction: skip whitespace, take the maximal
non-whitespace run, leave the rest (the delimiter is not consumed). -/
def readToken (cs : List Char) : List Char × List Char :=
  let s := cs.dropWhile isWSChar
  (s.takeWhile (fun c => !isWSChar c), s.dropWhile (fun c => !isWSChar c))

/-- Split the remaining stream into `std::getline` lines ('\n' delimiter,
delimiter consumed).  A trailing empty line stands for getline failing at
end-of-stream; the header loop stops on it either way. -/
def splitLinesAux : List Char → List Char → List (List Char)
  | [], acc => [acc.reverse]
  | c :: rest, acc =>
    if c == '\n' then acc.reverse :: splitLinesAux rest []
    else splitLinesAux rest (c :: acc)

/-- All `getline` lines of a character stream. -/
def splitLines (cs : List Char) : List (List Char) := splitLinesAux cs []

/-- `request_headers[name] = value` on the `std::map`: assign in place if the
key exists, otherwise add the entry (map ordering is immaterial here: the
parsed headers are never read back by the host). -/
def headerAssign (hs : List (String × String)) (k v : String) :
    List (String × String) :=
  if hs.any (fun q => q.1 == k) then hs.map (fun q => if q.1 == k then (k, v) else q)
  else hs ++ [(k, v)]

/-- One header line of `parse_request`: find `':'` (skip the line if absent),
split name/value, trim the value's leading spaces and tabs, drop a trailing
`'\r'`, and assign into the header map. -/
def insertHeader (hs : List (String × String)) (line : List Char) :
    List (String × String) :=
  if line.any (fun c => c == ':') then
    let name := line.takeWhile (fun c => c != ':')
    let value0 := (line.dropWhile (fun c => c != ':')).drop 1
    let value1 := value0.dropWhile (fun c => c == ' ' || c == '\t')
    let value2 := if value1.getLast? = some '\r' then value1.dropLast else value1
    headerAssign hs (String.mk name) (String.mk value2)
  else hs

/-- The `while (std::getline(iss, line) && !line.empty() && line != "\r")`
header loop of `parse_request`. -/
def parseHeaderLines : List (List Char) → List (String × String) →
    List (String × String)
  | [], hs => hs
  | l :: rest, hs =>
    if l = [] ∨ l = ['\r'] then hs
    else parseHeaderLines rest (insertHeader hs l)

/-- `HttpServer::parse_request`: extract method, path and version with
`operator>>`, reject when method or path is empty, then run the header loop on
the rest of the stream.  (For a CRLF request the first `getline` yields the
`"\r"` left over from the request line, so the header loop stops at once and
the header map stays empty; the body is never captured at all.) -/
def parse_request (request : List Char) : Option HttpData :=
  let (m, r1) := readToken request
  let (p, r2) := readToken r1
  let (v, r3) := readToken r2
  if m = [] ∨ p = [] then none
  else some
    { method := String.mk m, path := String.mk p, version := String.mk v,
      request_headers := parseHeaderLines (splitLines r3) [],
      response_headers := [], request_body := "", response_body := "",
      has_local_response := false, local_response_code := 0,
      local_response_body := "" }

/-- `HttpServer::build_local_response`: the short-circuit response, built from
the captured numeric code and body only (the remaining header lines are
constants); `Content-Length` is the body's byte length and the connection is
closed. -/
def build_local_response (hd : HttpData) : String :=
  "HTTP/1.1 " ++ toString hd.local_response_code ++ " OK\r\n" ++
  "Content-Type: text/plain\r\n" ++
  "X-Powered-By: lswasm/proxy-wasm\r\n" ++
  "Connection: close\r\n" ++
  "Content-Length: " ++ toString hd.local_response_body.utf8ByteSize ++ "\r\n" ++
  "\r\n" ++
  hd.local_response_body

/-- `HttpServer::process_request`: the default diagnostic response produced
when no module sent a local response (built for the wasmtime-enabled
configuration, the one in which modules can load at all). -/
def process_request (hd : HttpData) (mgr : Manager) : String :=
  let body :=
    "=== WASM HTTP Proxy Server ===\n\n" ++
    "Request Information:\n" ++
    "  Method: " ++ hd.method ++ "\n" ++
    "  Path: " ++ hd.path ++ "\n" ++
    "  Version: " ++ hd.version ++ "\n\n" ++
    "Runtime Information:\n" ++
    "  ✓ Wasmtime runtime available\n" ++
    "\nFilter Status:\n" ++
    (if getLoadedModules mgr = [] then "  • No filters loaded\n"
     else "  Loaded filters:\n" ++
       String.join ((getLoadedModules mgr).map (fun m => "    - " ++ m ++ "\n"))) ++
    "\nProxy-WASM Support:\n" ++
    "  • RootContext lifecycle callbacks\n" ++
    "  • HTTP filter callbacks (onRequest*, onResponse*)\n" ++
    "  • Connection events\n" ++
    "  • Metadata and data processing\n" ++
    "  • Status/error codes\n\n" ++
    "Submodules:\n" ++
    "  • proxy-wasm-cpp-host\n" ++
    "  • proxy-wasm-cpp-sdk\n" ++
    "  • proxy-wasm-spec\n"
  "HTTP/1.1 200 OK\r\n" ++
  "Content-Type: text/plain\r\n" ++
  "Connection: close\r\n" ++
  "Content-Length: " ++ toString body.utf8ByteSize ++ "\r\n" ++
  "\r\n" ++
  body

/-- Result of the `onRequestHeaders` filter-chain loop: updated registry,
updated `HttpData`, emitted events. -/
structure RHResult where
  mgr : Manager
  hd : HttpData
  events : List Event
deriving DecidableEq

/-- `HttpFilterContext::onRequestHeaders`, loop body over a module-name
snapshot: dispatch `onRequestHeaders` to each module in listing order and run
`checkLocalResponse` after each. -/
def rhLoopAux (g : GuestBehaviour) (names : List String) (mgr : Manager)
    (context_id : Nat) (hd : HttpData) : RHResult :=
  match names with
  | [] => ⟨mgr, hd, []⟩
  | m :: rest =>
    let r := executeFilter g mgr m context_id "onRequestHeaders"
    let hd' := checkLocalResponse r.mgr m hd
    let rec' := rhLoopAux g rest r.mgr context_id hd'
    ⟨rec'.mgr, rec'.hd, r.events ++ rec'.events⟩

/-- `HttpFilterContext::onRequestHeaders`: iterate over
`getLoadedModules()`. -/
def onRequestHeaders_ctx (g : GuestBehaviour) (mgr : Manager) (context_id : Nat)
    (hd : HttpData) : RHResult :=
  rhLoopAux g (getLoadedModules mgr) mgr context_id hd

/-- Result of a non-headers filter-chain loop. -/
structure PhaseResult where
  mgr : Manager
  events : List Event
deriving DecidableEq

/-- Loop body shared by `HttpFilterContext::onRequestBody`,
`onRequestTrailers`, `onResponseHeaders`, `onResponseBody`,
`onResponseTrailers` and `onDone`: dispatch the phase to each module of the
snapshot in listing order, ignoring the boolean result. -/
def runPhaseAux (g : GuestBehaviour) (names : List String) (mgr : Manager)
    (context_id : Nat) (phase : String) : PhaseResult :=
  match names with
  | [] => ⟨mgr, []⟩
  | m :: rest =>
    let r := executeFilter g mgr m context_id phase
    let rec' := runPhaseAux g rest r.mgr context_id phase
    ⟨rec'.mgr, r.events ++ rec'.events⟩

/-- A non-headers `HttpFilterContext` phase method: iterate over
`getLoadedModules()`. -/
def runPhase (g : GuestBehaviour) (mgr : Manager) (context_id : Nat)
    (phase : String) : PhaseResult :=
  runPhaseAux g (getLoadedModules mgr) mgr context_id phase

/-- `g_next_context_id.fetch_add(1)` on the `std::atomic<uint32_t>`: returns
the current value and stores the 32-bit-wrapped successor. -/
def fetchAdd (ctr : Nat) : Nat × Nat := (ctr % 2^32, (ctr + 1) % 2^32)

/-- Counter value after `n` allocations starting from the initializer `1`. -/
def counterAfter : Nat → Nat
  | 0 => 1
  | n + 1 => (fetchAdd (counterAfter n)).2

/-- The id handed to the `n`-th request (0-based) when every request parses. -/
def issuedId (n : Nat) : Nat := (fetchAdd (counterAfter n)).1

/-- Result of `HttpServer::handle_client_data`: updated registry, updated id
counter, the context id allocated (none if parsing rejected the request), the
response bytes sent (none if nothing was sent), and the event trace. -/
structure HandleResult where
  mgr : Manager
  ctr : Nat
  ctxId : Option Nat
  response : Option String
  events : List Event
deriving DecidableEq

/-- `HttpServer::handle_client_data`: parse (silently dropping a request with
an empty method or path), allocate the context id, run `onRequestHeaders`
through the filter chain; if a local response was captured, answer with
`build_local_response` and stop; otherwise run `onRequestBody`,
`onRequestTrailers`, `onDone`, build the default response, run the three
response phases and the final `onDone`, and send it. -/
def handle_client_data (g : GuestBehaviour) (mgr : Manager) (ctr : Nat)
    (request : List Char) : HandleResult :=
  match parse_request request with
  | none => ⟨mgr, ctr, none, none, []⟩
  | some hd =>
    let ctx_id := (fetchAdd ctr).1
    let ctr' := (fetchAdd ctr).2
    let r1 := onRequestHeaders_ctx g mgr ctx_id hd
    if r1.hd.has_local_response then
      ⟨r1.mgr, ctr', some ctx_id, some (build_local_response r1.hd), r1.events⟩
    else
      let r2 := runPhase g r1.mgr ctx_id "onRequestBody"
      let r3 := runPhase g r2.mgr ctx_id "onRequestTrailers"
      let r4 := runPhase g r3.mgr ctx_id "onDone"
      let resp := process_request r1.hd r4.mgr
      let r5 := runPhase g r4.mgr ctx_id "onResponseHeaders"
      let r6 := runPhase g r5.mgr ctx_id "onResponseBody"
      let r7 := runPhase g r6.mgr ctx_id "onResponseTrailers"
      let r8 := runPhase g r7.mgr ctx_id "onDone"
      ⟨r8.mgr, ctr', some ctx_id, some resp,
        r1.events ++ r2.events ++ r3.events ++ r4.events ++ r5.events ++
        r6.events ++ r7.events ++ r8.events⟩

/-- What the epoll read loop of `HttpServer::accept_connections` does with a
connection after one `recv`: append, drop the connection when the buffer
exceeds `MAX_REQUEST_SIZE` (64 KiB), process-and-close as soon as the buffer
contains the `\r\n\r\n` header terminator, otherwise keep waiting. -/
inductive ConnStep where
  | keep (buffer : List Char)
  | dropped
  | processed (buffer : List Char)
deriving DecidableEq

/-- Scan for the literal `"\r\n\r\n"` (the `client_buffers[fd].find` call). -/
def hasHeaderEnd : List Char → Bool
  | '\r' :: '\n' :: '\r' :: '\n' :: _ => true
  | _ :: rest => hasHeaderEnd rest
  | [] => false

/-- One read iteration of the epoll loop (`accept_connections`,
main.cpp). -/
def client_read_step (buffer chunk : List Char) : ConnStep :=
  let b := buffer ++ chunk
  if b.length > 65536 then ConnStep.dropped
  else if hasHeaderEnd b then ConnStep.processed b
  else ConnStep.keep b

/-- The string/phase pairs of the guest callbacks actually invoked, in
order. -/
def callbackEvents (evs : List Event) : List (String × Phase) :=
  evs.filterMap (fun e =>
    match e with
    | Event.callback m p _ => some (m, p)
    | _ => none)

/-- The eight phase slots of one completed, non-short-circuited request, in
pipeline order; both done slots are served by the `onDone` callback. -/
def phaseSequence : List Phase :=
  [Phase.requestHeaders, Phase.requestBody, Phase.requestTrailers, Phase.done,
   Phase.responseHeaders, Phase.responseBody, Phase.responseTrailers, Phase.done]

/-- The canonical callback trace: every phase slot in order, and each module
of the listing in listing order within each slot. -/
def canonicalTrace (names : List String) : List (String × Phase) :=
  phaseSequence.flatMap (fun p => names.map (fun m => (m, p)))

/-- All modules of a registry have a live, non-failed VM. -/
def entriesNonFailed (mgr : Manager) : Prop :=
  ∀ q ∈ mgr, q.2.failed = false

/-- All modules of a registry have a live VM and a current stream context. -/
def entriesReady (mgr : Manager) : Prop :=
  ∀ q ∈ mgr, q.2.failed = false ∧ q.2.stream_context.isSome = true

instance (mgr : Manager) : Decidable (entriesNonFailed mgr) := by
  unfold entriesNonFailed; infer_instance

instance (mgr : Manager) : Decidable (entriesReady mgr) := by
  unfold entriesReady; infer_instance


/-! ## Concrete instances used as evaluation witnesses -/

/-- A guest whose callbacks return without doing anything. -/
def gOk : GuestBehaviour := ⟨fun _ => true, fun _ _ _ c => GuestStep.ok c⟩

/-- A guest that calls `sendLocalResponse(200, "hello")` during its
`onRequestHeaders` callback (the `echo` module of the spec's end-to-end
scenario 1). -/
def gLocal : GuestBehaviour :=
  ⟨fun _ => true, fun _ p _ c =>
    if p = Phase.requestHeaders then GuestStep.ok (c.sendLocalResponse 200 "hello" "")
    else GuestStep.ok c⟩

/-- A guest whose module `"a"` traps in every callback while other modules
return normally. -/
def gTrapA : GuestBehaviour :=
  ⟨fun _ => true, fun m _ _ c =>
    if m = "a" then GuestStep.trap c else GuestStep.ok c⟩

/-- A registry holding one freshly loaded module `"f"`. -/
def mgrF : Manager := [("f", freshModuleState)]

/-- A registry holding two freshly loaded modules `"a"` and `"b"`. -/
def mgrAB : Manager := [("a", freshModuleState), ("b", freshModuleState)]

/-- A module state with a live stream context bound to request id 1. -/
def readyState : ModuleState :=
  { failed := false, stream_context := some freshStreamCtx, stream_context_id := 1 }

/-- The stream context left behind by request 1 on which a local response was
captured. -/
def staleCtx : StreamCtx :=
  { freshStreamCtx with has_local_response := true,
                        local_response_code := 200,
                        local_response_body := "old" }

/-- A registry whose module `"f"` still holds request 1's stream context and
its captured local response. -/
def mgrStale : Manager :=
  [("f", { failed := false, stream_context := some staleCtx, stream_context_id := 1 })]

/-- A well-formed request, as bytes. -/
def reqDemo : List Char := "GET / HTTP/1.1\r\nHost: x\r\n\r\n".data

/-- What `parse_request` yields on `reqDemo` (note the empty header map: the
header loop stops on the `"\r"` remnant of the request line). -/
def hdDemo : HttpData :=
  { method := "GET", path := "/", version := "HTTP/1.1", request_headers := [],
    response_headers := [], request_body := "", response_body := "",
    has_local_response := false, local_response_code := 0, local_response_body := "" }

/-- The header part of a request announcing `Content-Length: 5`, arriving as
one read; the 5 body bytes are to follow in later reads. -/
def c3Request : List Char := "POST / HTTP/1.1\r\nContent-Length: 5\r\n\r\n".data

/-- A load outcome in which every external step succeeds. -/
def ocAll : LoadOutcome := ⟨true, true, true, true⟩

/-! ## Registry lemmas -/

theorem getLoadedModules_setState (mgr : Manager) (m : String) (st : ModuleState) :
    getLoadedModules (setState mgr m st) = getLoadedModules mgr := by
  induction mgr with
  | nil => rfl
  | cons q t ih =>
    simp only [setState, getLoadedModules, List.map_cons] at *
    by_cases h : q.1 = m <;> simp [h, ih]

theorem mem_setState_elim {mgr : Manager} {m : String} {st : ModuleState}
    {q : String × ModuleState} (hq : q ∈ setState mgr m st) :
    q = (m, st) ∨ q ∈ mgr := by
  simp only [setState, List.mem_map] at hq
  obtain ⟨p, hp, he⟩ := hq
  by_cases h : p.1 = m
  · simp [h] at he; left; exact he.symm
  · simp [h] at he; right; exact he ▸ hp

theorem mem_setState_key {mgr : Manager} {m : String} {st : ModuleState}
    {q : String × ModuleState} (hq : q ∈ setState mgr m st) (hk : q.1 = m) :
    q = (m, st) := by
  simp only [setState, List.mem_map] at hq
  obtain ⟨p, hp, he⟩ := hq
  by_cases h : p.1 = m
  · simp [h] at he; exact he.symm
  · simp [h] at he; exact absurd (he ▸ hk) h

theorem mem_setState_ne {mgr : Manager} {m : String} {st : ModuleState}
    {q : String × ModuleState} (hq : q ∈ setState mgr m st) (hk : q.1 ≠ m) :
    q ∈ mgr := by
  rcases mem_setState_elim hq with h | h
  · exact absurd (by rw [h]) hk
  · exact h

theorem mfind_mem {mgr : Manager} {m : String} {st : ModuleState}
    (h : mfind mgr m = some st) : (m, st) ∈ mgr := by
  induction mgr with
  | nil => simp [mfind] at h
  | cons q t ih =>
    obtain ⟨k, v⟩ := q
    simp only [mfind] at h
    by_cases hk : k = m
    · rw [if_pos hk] at h
      injection h with h
      subst hk; subst h
      exact List.mem_cons_self _ _
    · rw [if_neg hk] at h
      exact List.mem_cons_of_mem _ (ih h)

theorem mem_names_mfind {mgr : Manager} {m : String}
    (h : m ∈ getLoadedModules mgr) : ∃ st, mfind mgr m = some st := by
  induction mgr with
  | nil => simp [getLoadedModules] at h
  | cons q t ih =>
    obtain ⟨k, v⟩ := q
    simp only [getLoadedModules, List.map_cons, List.mem_cons] at h
    by_cases hk : k = m
    · exact ⟨v, by simp [mfind, hk]⟩
    · rcases h with h | h
      · exact absurd h.symm hk
      · obtain ⟨st, hst⟩ := ih h
        exact ⟨st, by simp [mfind, hk, hst]⟩

theorem mfind_insertSorted_self {mgr : Manager} {m : String} (st : ModuleState)
    (h : mfind mgr m = none) : mfind (insertSorted mgr m st) m = some st := by
  induction mgr with
  | nil => simp [insertSorted, mfind]
  | cons q t ih =>
    obtain ⟨k, v⟩ := q
    simp only [mfind] at h
    by_cases hk : k = m
    · rw [if_pos hk] at h; exact absurd h (by simp)
    · rw [if_neg hk] at h
      simp only [insertSorted]
      by_cases hlt : m < k
      · simp [hlt, mfind]
      · simp [hlt, mfind, hk, ih h]

theorem mfind_some_mem_names {mgr : Manager} {m : String} {st : ModuleState}
    (h : mfind mgr m = some st) : m ∈ getLoadedModules mgr := by
  unfold getLoadedModules
  exact List.mem_map.mpr ⟨(m, st), mfind_mem h, rfl⟩

/-! ## Dispatch equation lemmas -/

theorem invokeCallback_ctx_none {g : GuestBehaviour} {mgr : Manager} {m : String}
    {st : ModuleState} {p : Phase} (h : st.stream_context = none) :
    invokeCallback g mgr m st p = ⟨mgr, true, []⟩ := by
  unfold invokeCallback; rw [h]

theorem invokeCallback_ctx_ok {g : GuestBehaviour} {mgr : Manager} {m : String}
    {st : ModuleState} {p : Phase} {c c' : StreamCtx}
    (hc : st.stream_context = some c) (hg : g.callback m p 0 c = GuestStep.ok c') :
    invokeCallback g mgr m st p =
      ⟨setState mgr m { st with stream_context := some c' }, true,
        [Event.callback m p 0]⟩ := by
  unfold invokeCallback
  rw [hc]
  dsimp only
  rw [hg]

theorem invokeCallback_ctx_trap {g : GuestBehaviour} {mgr : Manager} {m : String}
    {st : ModuleState} {p : Phase} {c c' : StreamCtx}
    (hc : st.stream_context = some c) (hg : g.callback m p 0 c = GuestStep.trap c') :
    invokeCallback g mgr m st p =
      ⟨setState mgr m { st with stream_context := some c' }, false,
        [Event.callback m p 0, Event.execError m p]⟩ := by
  unfold invokeCallback
  rw [hc]
  dsimp only
  rw [hg]

theorem executeFilter_not_found {g : GuestBehaviour} {mgr : Manager} {m : String}
    {context_id : Nat} {phase : String} (h : mfind mgr m = none) :
    executeFilter g mgr m context_id phase = ⟨mgr, false, []⟩ := by
  unfold executeFilter; rw [h]

theorem executeFilter_vm_failed {g : GuestBehaviour} {mgr : Manager} {m : String}
    {context_id : Nat} {phase : String} {st : ModuleState}
    (h1 : mfind mgr m = some st) (h2 : st.failed = true) :
    executeFilter g mgr m context_id phase = ⟨mgr, false, []⟩ := by
  unfold executeFilter; rw [h1]; simp [h2]

theorem executeFilter_unknown {g : GuestBehaviour} {mgr : Manager} {m : String}
    {context_id : Nat} {phase : String} {st : ModuleState}
    (h1 : mfind mgr m = some st) (h2 : st.failed = false)
    (h3 : phaseOfString phase = none) :
    executeFilter g mgr m context_id phase = ⟨mgr, true, [Event.unknownPhase phase]⟩ := by
  unfold executeFilter; rw [h1]; simp [h2, h3]

/-- The fresh, reset module state `onRequestHeaders` installs before invoking
the callback. -/
def rhFreshState (st : ModuleState) (context_id : Nat) : ModuleState :=
  { st with stream_context := some (StreamCtx.resetLocalResponse freshStreamCtx),
            stream_context_id := context_id }

theorem executeFilter_rh_create {g : GuestBehaviour} {mgr : Manager} {m : String}
    {context_id : Nat} {phase : String} {st : ModuleState}
    (h1 : mfind mgr m = some st) (h2 : st.failed = false)
    (hφ : phaseOfString phase = some Phase.requestHeaders)
    (hcond : st.stream_context = none ∨ st.stream_context_id ≠ context_id)
    (hcc : g.ctxCreateOk m = true) :
    executeFilter g mgr m context_id phase =
      invokeCallback g (setState mgr m (rhFreshState st context_id)) m
        (rhFreshState st context_id) Phase.requestHeaders := by
  unfold executeFilter
  rw [h1]
  simp only [h2, Bool.false_eq_true, if_false]
  rw [hφ]
  simp only [if_pos rfl, reduceIte]
  rw [if_pos hcond, hcc]
  simp [rhFreshState, h2]

theorem executeFilter_rh_create_fail {g : GuestBehaviour} {mgr : Manager} {m : String}
    {context_id : Nat} {phase : String} {st : ModuleState}
    (h1 : mfind mgr m = some st) (h2 : st.failed = false)
    (hφ : phaseOfString phase = some Phase.requestHeaders)
    (hcond : st.stream_context = none ∨ st.stream_context_id ≠ context_id)
    (hcc : g.ctxCreateOk m = false) :
    executeFilter g mgr m context_id phase = ⟨mgr, false, []⟩ := by
  unfold executeFilter
  rw [h1]
  simp only [h2, Bool.false_eq_true, if_false]
  rw [hφ]
  simp only [if_pos rfl, reduceIte]
  rw [if_pos hcond, hcc]
  simp

theorem executeFilter_rh_reuse {g : GuestBehaviour} {mgr : Manager} {m : String}
    {context_id : Nat} {phase : String} {st : ModuleState}
    (h1 : mfind mgr m = some st) (h2 : st.failed = false)
    (hφ : phaseOfString phase = some Phase.requestHeaders)
    (hcond : ¬(st.stream_context = none ∨ st.stream_context_id ≠ context_id)) :
    executeFilter g mgr m context_id phase =
      invokeCallback g mgr m st Phase.requestHeaders := by
  unfold executeFilter
  rw [h1]
  simp only [h2, Bool.false_eq_true, if_false]
  rw [hφ]
  simp only [if_pos rfl, reduceIte]
  rw [if_neg hcond]

theorem executeFilter_nonrh {g : GuestBehaviour} {mgr : Manager} {m : String}
    {context_id : Nat} {phase : String} {st : ModuleState} {p : Phase} {c : StreamCtx}
    (h1 : mfind mgr m = some st) (h2 : st.failed = false)
    (hφ : phaseOfString phase = some p) (hp : p ≠ Phase.requestHeaders)
    (hs : st.stream_context = some c) :
    executeFilter g mgr m context_id phase = invokeCallback g mgr m st p := by
  unfold executeFilter
  rw [h1]
  simp only [h2, Bool.false_eq_true, if_false]
  rw [hφ]
  simp only [if_neg hp]
  rw [hs]

theorem executeFilter_nonrh_none {g : GuestBehaviour} {mgr : Manager} {m : String}
    {context_id : Nat} {phase : String} {st : ModuleState} {p : Phase}
    (h1 : mfind mgr m = some st) (h2 : st.failed = false)
    (hφ : phaseOfString phase = some p) (hp : p ≠ Phase.requestHeaders)
    (hs : st.stream_context = none) :
    executeFilter g mgr m context_id phase = ⟨mgr, true, []⟩ := by
  unfold executeFilter
  rw [h1]
  simp only [h2, Bool.false_eq_true, if_false]
  rw [hφ]
  simp only [if_neg hp]
  rw [hs]

theorem setState_setState (mgr : Manager) (m : String) (a b : ModuleState) :
    setState (setState mgr m a) m b = setState mgr m b := by
  induction mgr with
  | nil => rfl
  | cons q t ih =>
    simp only [setState, List.map_cons] at *
    by_cases h : q.1 = m <;> simp [h, ih]

theorem executeFilter_mgr_cases (g : GuestBehaviour) (mgr : Manager) (m : String)
    (context_id : Nat) (phase : String) :
    (executeFilter g mgr m context_id phase).mgr = mgr ∨
    ∃ st', (executeFilter g mgr m context_id phase).mgr = setState mgr m st' := by
  cases hf : mfind mgr m with
  | none => rw [executeFilter_not_found hf]; left; rfl
  | some st =>
    cases hst : st.failed with
    | true => rw [executeFilter_vm_failed hf hst]; left; rfl
    | false =>
      cases hφ : phaseOfString phase with
      | none => rw [executeFilter_unknown hf hst hφ]; left; rfl
      | some p =>
        by_cases hp : p = Phase.requestHeaders
        · subst hp
          by_cases hcond : st.stream_context = none ∨ st.stream_context_id ≠ context_id
          · by_cases hcc : g.ctxCreateOk m = true
            · rw [executeFilter_rh_create hf hst hφ hcond hcc]
              cases hgc : g.callback m Phase.requestHeaders 0
                  (StreamCtx.resetLocalResponse freshStreamCtx) with
              | ok c' =>
                rw [invokeCallback_ctx_ok rfl hgc]
                right
                refine ⟨{ rhFreshState st context_id with stream_context := some c' }, ?_⟩
                dsimp only
                rw [setState_setState]
              | trap c' =>
                rw [invokeCallback_ctx_trap rfl hgc]
                right
                refine ⟨{ rhFreshState st context_id with stream_context := some c' }, ?_⟩
                dsimp only
                rw [setState_setState]
            · rw [executeFilter_rh_create_fail hf hst hφ hcond (by simpa using hcc)]
              left; rfl
          · push_neg at hcond
            obtain ⟨hcs, hci⟩ := hcond
            obtain ⟨c, hc⟩ := Option.ne_none_iff_exists'.mp hcs
            rw [executeFilter_rh_reuse hf hst hφ (by rw [hc]; simp [hci])]
            cases hgc : g.callback m Phase.requestHeaders 0 c with
            | ok c' => rw [invokeCallback_ctx_ok hc hgc]; right; exact ⟨_, rfl⟩
            | trap c' => rw [invokeCallback_ctx_trap hc hgc]; right; exact ⟨_, rfl⟩
        · cases hcs : st.stream_context with
          | none => rw [executeFilter_nonrh_none hf hst hφ hp hcs]; left; rfl
          | some c =>
            rw [executeFilter_nonrh hf hst hφ hp hcs]
            cases hgc : g.callback m p 0 c with
            | ok c' => rw [invokeCallback_ctx_ok hcs hgc]; right; exact ⟨_, rfl⟩
            | trap c' => rw [invokeCallback_ctx_trap hcs hgc]; right; exact ⟨_, rfl⟩

theorem executeFilter_names (g : GuestBehaviour) (mgr : Manager) (m : String)
    (context_id : Nat) (phase : String) :
    getLoadedModules (executeFilter g mgr m context_id phase).mgr =
      getLoadedModules mgr := by
  rcases executeFilter_mgr_cases g mgr m context_id phase with h | ⟨st', h⟩
  · rw [h]
  · rw [h, getLoadedModules_setState]

theorem executeFilter_rh_spec {g : GuestBehaviour} {mgr : Manager} {m : String}
    {st : ModuleState} (context_id : Nat)
    (h1 : mfind mgr m = some st) (h2 : st.failed = false)
    (hcc : g.ctxCreateOk m = true) :
    callbackEvents (executeFilter g mgr m context_id "onRequestHeaders").events =
      [(m, Phase.requestHeaders)] ∧
    ∀ q ∈ (executeFilter g mgr m context_id "onRequestHeaders").mgr,
      (q.1 = m → q.2.failed = false ∧ q.2.stream_context.isSome = true) ∧
      (q.1 ≠ m → q ∈ mgr) := by
  by_cases hcond : st.stream_context = none ∨ st.stream_context_id ≠ context_id
  · rw [executeFilter_rh_create h1 h2 (show phaseOfString "onRequestHeaders" = some Phase.requestHeaders from rfl) hcond hcc]
    cases hgc : g.callback m Phase.requestHeaders 0
        (StreamCtx.resetLocalResponse freshStreamCtx) with
    | ok c' =>
      rw [invokeCallback_ctx_ok rfl hgc]
      refine ⟨by simp [callbackEvents], fun q hq => ?_⟩
      simp only [setState_setState] at hq
      refine ⟨fun hk => ?_, fun hk => mem_setState_ne hq hk⟩
      rw [mem_setState_key hq hk]
      exact ⟨h2, rfl⟩
    | trap c' =>
      rw [invokeCallback_ctx_trap rfl hgc]
      refine ⟨by simp [callbackEvents], fun q hq => ?_⟩
      simp only [setState_setState] at hq
      refine ⟨fun hk => ?_, fun hk => mem_setState_ne hq hk⟩
      rw [mem_setState_key hq hk]
      exact ⟨h2, rfl⟩
  · push_neg at hcond
    obtain ⟨hcs, hci⟩ := hcond
    obtain ⟨c, hc⟩ := Option.ne_none_iff_exists'.mp hcs
    rw [executeFilter_rh_reuse h1 h2 (show phaseOfString "onRequestHeaders" = some Phase.requestHeaders from rfl) (by rw [hc]; simp [hci])]
    cases hgc : g.callback m Phase.requestHeaders 0 c with
    | ok c' =>
      rw [invokeCallback_ctx_ok hc hgc]
      refine ⟨by simp [callbackEvents], fun q hq => ?_⟩
      refine ⟨fun hk => ?_, fun hk => mem_setState_ne hq hk⟩
      rw [mem_setState_key hq hk]
      exact ⟨h2, rfl⟩
    | trap c' =>
      rw [invokeCallback_ctx_trap hc hgc]
      refine ⟨by simp [callbackEvents], fun q hq => ?_⟩
      refine ⟨fun hk => ?_, fun hk => mem_setState_ne hq hk⟩
      rw [mem_setState_key hq hk]
      exact ⟨h2, rfl⟩

theorem executeFilter_nonrh_spec {g : GuestBehaviour} {mgr : Manager} {m : String}
    {phase : String} {st : ModuleState} {p : Phase} {c : StreamCtx} (context_id : Nat)
    (h1 : mfind mgr m = some st) (h2 : st.failed = false)
    (hφ : phaseOfString phase = some p) (hp : p ≠ Phase.requestHeaders)
    (hs : st.stream_context = some c) :
    callbackEvents (executeFilter g mgr m context_id phase).events = [(m, p)] ∧
    ∀ q ∈ (executeFilter g mgr m context_id phase).mgr,
      (q.1 = m → q.2.failed = false ∧ q.2.stream_context.isSome = true) ∧
      (q.1 ≠ m → q ∈ mgr) := by
  rw [executeFilter_nonrh h1 h2 hφ hp hs]
  cases hgc : g.callback m p 0 c with
  | ok c' =>
    rw [invokeCallback_ctx_ok hs hgc]
    refine ⟨by simp [callbackEvents], fun q hq => ?_⟩
    refine ⟨fun hk => ?_, fun hk => mem_setState_ne hq hk⟩
    rw [mem_setState_key hq hk]
    exact ⟨h2, rfl⟩
  | trap c' =>
    rw [invokeCallback_ctx_trap hs hgc]
    refine ⟨by simp [callbackEvents], fun q hq => ?_⟩
    refine ⟨fun hk => ?_, fun hk => mem_setState_ne hq hk⟩
    rw [mem_setState_key hq hk]
    exact ⟨h2, rfl⟩

theorem invokeCallback_events_shape {g : GuestBehaviour} {mgr : Manager} {m : String}
    {st : ModuleState} {p : Phase} :
    ∀ e ∈ (invokeCallback g mgr m st p).events,
      e = Event.callback m p 0 ∨ e = Event.execError m p := by
  intro e he
  cases hc : st.stream_context with
  | none => rw [invokeCallback_ctx_none hc] at he; simp at he
  | some c =>
    cases hgc : g.callback m p 0 c with
    | ok c' =>
      rw [invokeCallback_ctx_ok hc hgc] at he
      simp at he
      exact Or.inl he
    | trap c' =>
      rw [invokeCallback_ctx_trap hc hgc] at he
      simpa using he

theorem executeFilter_rh_events_shape {g : GuestBehaviour} {mgr : Manager} {m : String}
    {context_id : Nat} :
    ∀ e ∈ (executeFilter g mgr m context_id "onRequestHeaders").events,
      e = Event.callback m Phase.requestHeaders 0 ∨
      e = Event.execError m Phase.requestHeaders := by
  intro e he
  cases hf : mfind mgr m with
  | none => rw [executeFilter_not_found hf] at he; simp at he
  | some st =>
    cases hst : st.failed with
    | true => rw [executeFilter_vm_failed hf hst] at he; simp at he
    | false =>
      by_cases hcond : st.stream_context = none ∨ st.stream_context_id ≠ context_id
      · cases hcc : g.ctxCreateOk m with
        | true =>
          rw [executeFilter_rh_create hf hst
            (show phaseOfString "onRequestHeaders" = some Phase.requestHeaders from rfl)
            hcond hcc] at he
          exact invokeCallback_events_shape e he
        | false =>
          rw [executeFilter_rh_create_fail hf hst
            (show phaseOfString "onRequestHeaders" = some Phase.requestHeaders from rfl)
            hcond hcc] at he
          simp at he
      · rw [executeFilter_rh_reuse hf hst
          (show phaseOfString "onRequestHeaders" = some Phase.requestHeaders from rfl)
          hcond] at he
        exact invokeCallback_events_shape e he

theorem callbackEvents_append (a b : List Event) :
    callbackEvents (a ++ b) = callbackEvents a ++ callbackEvents b := by
  unfold callbackEvents
  exact List.filterMap_append _ _ _

/-- Unfolding of the `onRequestHeaders` loop on a non-empty module snapshot. -/
theorem rhLoopAux_cons (g : GuestBehaviour) (m : String) (rest : List String)
    (mgr : Manager) (context_id : Nat) (hd : HttpData) :
    rhLoopAux g (m :: rest) mgr context_id hd =
      ⟨(rhLoopAux g rest (executeFilter g mgr m context_id "onRequestHeaders").mgr
          context_id
          (checkLocalResponse (executeFilter g mgr m context_id "onRequestHeaders").mgr
            m hd)).mgr,
        (rhLoopAux g rest (executeFilter g mgr m context_id "onRequestHeaders").mgr
          context_id
          (checkLocalResponse (executeFilter g mgr m context_id "onRequestHeaders").mgr
            m hd)).hd,
        (executeFilter g mgr m context_id "onRequestHeaders").events ++
          (rhLoopAux g rest (executeFilter g mgr m context_id "onRequestHeaders").mgr
            context_id
            (checkLocalResponse
              (executeFilter g mgr m context_id "onRequestHeaders").mgr m hd)).events⟩ :=
  rfl

theorem rhLoopAux_events_rh (g : GuestBehaviour) (names : List String) :
    ∀ (mgr : Manager) (context_id : Nat) (hd : HttpData),
    ∀ e ∈ (rhLoopAux g names mgr context_id hd).events,
      (∃ m a, e = Event.callback m Phase.requestHeaders a) ∨
      (∃ m, e = Event.execError m Phase.requestHeaders) := by
  induction names with
  | nil => intro mgr context_id hd e he; simp [rhLoopAux] at he
  | cons m rest ih =>
    intro mgr context_id hd e he
    rw [rhLoopAux_cons] at he
    simp only [List.mem_append] at he
    rcases he with he | he
    · rcases executeFilter_rh_events_shape e he with h | h
      · exact Or.inl ⟨m, 0, h⟩
      · exact Or.inr ⟨m, h⟩
    · exact ih _ _ _ e he

theorem rhLoopAux_spec (g : GuestBehaviour) (names : List String) :
    ∀ (mgr : Manager) (context_id : Nat) (hd : HttpData),
    (∀ m ∈ names, m ∈ getLoadedModules mgr) →
    entriesNonFailed mgr →
    (∀ m ∈ names, g.ctxCreateOk m = true) →
    callbackEvents (rhLoopAux g names mgr context_id hd).events =
        names.map (fun m => (m, Phase.requestHeaders)) ∧
    getLoadedModules (rhLoopAux g names mgr context_id hd).mgr = getLoadedModules mgr ∧
    entriesNonFailed (rhLoopAux g names mgr context_id hd).mgr ∧
    (∀ q ∈ (rhLoopAux g names mgr context_id hd).mgr,
        (q.1 ∈ names → q.2.stream_context.isSome = true) ∧
        (q.2.stream_context.isSome = true ∨ q ∈ mgr)) := by
  induction names with
  | nil =>
    intro mgr context_id hd _ hnf _
    exact ⟨rfl, rfl, hnf, fun q hq => ⟨fun hk => by simp at hk, Or.inr hq⟩⟩
  | cons m rest ih =>
    intro mgr context_id hd hsub hnf hcc
    obtain ⟨st, hst⟩ := mem_names_mfind (hsub m (List.mem_cons_self m rest))
    have hstf : st.failed = false := hnf (m, st) (mfind_mem hst)
    have hccm : g.ctxCreateOk m = true := hcc m (List.mem_cons_self m rest)
    obtain ⟨hev, hqs⟩ := executeFilter_rh_spec context_id hst hstf hccm
    have hnames1 : getLoadedModules
        (executeFilter g mgr m context_id "onRequestHeaders").mgr =
        getLoadedModules mgr := executeFilter_names g mgr m context_id _
    have hnf1 : entriesNonFailed (executeFilter g mgr m context_id "onRequestHeaders").mgr := by
      intro q hq
      by_cases hk : q.1 = m
      · exact ((hqs q hq).1 hk).1
      · exact hnf q ((hqs q hq).2 hk)
    have hsub1 : ∀ m' ∈ rest,
        m' ∈ getLoadedModules (executeFilter g mgr m context_id "onRequestHeaders").mgr := by
      intro m' hm'
      rw [hnames1]
      exact hsub m' (List.mem_cons_of_mem _ hm')
    have hcc1 : ∀ m' ∈ rest, g.ctxCreateOk m' = true :=
      fun m' hm' => hcc m' (List.mem_cons_of_mem _ hm')
    obtain ⟨ih1, ih2, ih3, ih4⟩ :=
      ih (executeFilter g mgr m context_id "onRequestHeaders").mgr context_id
        (checkLocalResponse (executeFilter g mgr m context_id "onRequestHeaders").mgr m hd)
        hsub1 hnf1 hcc1
    rw [rhLoopAux_cons]
    refine ⟨?_, ?_, ih3, ?_⟩
    · rw [callbackEvents_append, hev, ih1, List.map_cons]
      rfl
    · rw [ih2, hnames1]
    · intro q hq
      constructor
      · intro hqn
        rcases List.mem_cons.mp hqn with hqm | hqr
        · rcases (ih4 q hq).2 with hsome | hq1
          · exact hsome
          · exact ((hqs q hq1).1 hqm).2
        · exact (ih4 q hq).1 hqr
      · rcases (ih4 q hq).2 with hsome | hq1
        · exact Or.inl hsome
        · by_cases hk : q.1 = m
          · exact Or.inl ((hqs q hq1).1 hk).2
          · exact Or.inr ((hqs q hq1).2 hk)

theorem onRequestHeaders_ready (g : GuestBehaviour) (mgr : Manager)
    (context_id : Nat) (hd : HttpData)
    (hnf : entriesNonFailed mgr)
    (hcc : ∀ m ∈ getLoadedModules mgr, g.ctxCreateOk m = true) :
    callbackEvents (onRequestHeaders_ctx g mgr context_id hd).events =
      (getLoadedModules mgr).map (fun m => (m, Phase.requestHeaders)) ∧
    getLoadedModules (onRequestHeaders_ctx g mgr context_id hd).mgr =
      getLoadedModules mgr ∧
    entriesReady (onRequestHeaders_ctx g mgr context_id hd).mgr := by
  unfold onRequestHeaders_ctx
  obtain ⟨h1, h2, h3, h4⟩ :=
    rhLoopAux_spec g (getLoadedModules mgr) mgr context_id hd (fun _ hm => hm) hnf hcc
  refine ⟨h1, h2, fun q hq => ⟨h3 q hq, ?_⟩⟩
  apply (h4 q hq).1
  have hmem : q.1 ∈ getLoadedModules
      (rhLoopAux g (getLoadedModules mgr) mgr context_id hd).mgr :=
    List.mem_map.mpr ⟨q, hq, rfl⟩
  rwa [h2] at hmem

/-- Unfolding of a non-headers phase loop on a non-empty module snapshot. -/
theorem runPhaseAux_cons (g : GuestBehaviour) (m : String) (rest : List String)
    (mgr : Manager) (context_id : Nat) (phase : String) :
    runPhaseAux g (m :: rest) mgr context_id phase =
      ⟨(runPhaseAux g rest (executeFilter g mgr m context_id phase).mgr
          context_id phase).mgr,
        (executeFilter g mgr m context_id phase).events ++
          (runPhaseAux g rest (executeFilter g mgr m context_id phase).mgr
            context_id phase).events⟩ :=
  rfl

theorem runPhaseAux_spec (g : GuestBehaviour) (names : List String) {phase : String}
    {p : Phase} (hφ : phaseOfString phase = some p) (hp : p ≠ Phase.requestHeaders) :
    ∀ (mgr : Manager) (context_id : Nat),
    (∀ m ∈ names, m ∈ getLoadedModules mgr) →
    entriesReady mgr →
    callbackEvents (runPhaseAux g names mgr context_id phase).events =
        names.map (fun m => (m, p)) ∧
    getLoadedModules (runPhaseAux g names mgr context_id phase).mgr =
      getLoadedModules mgr ∧
    entriesReady (runPhaseAux g names mgr context_id phase).mgr := by
  induction names with
  | nil => intro mgr context_id _ hre; exact ⟨rfl, rfl, hre⟩
  | cons m rest ih =>
    intro mgr context_id hsub hre
    obtain ⟨st, hst⟩ := mem_names_mfind (hsub m (List.mem_cons_self m rest))
    obtain ⟨hstf, hsts⟩ := hre (m, st) (mfind_mem hst)
    obtain ⟨c, hc⟩ := Option.isSome_iff_exists.mp hsts
    obtain ⟨hev, hqs⟩ := executeFilter_nonrh_spec context_id hst hstf hφ hp hc
    have hnames1 : getLoadedModules (executeFilter g mgr m context_id phase).mgr =
        getLoadedModules mgr := executeFilter_names g mgr m context_id _
    have hre1 : entriesReady (executeFilter g mgr m context_id phase).mgr := by
      intro q hq
      by_cases hk : q.1 = m
      · exact (hqs q hq).1 hk
      · exact hre q ((hqs q hq).2 hk)
    have hsub1 : ∀ m' ∈ rest,
        m' ∈ getLoadedModules (executeFilter g mgr m context_id phase).mgr := by
      intro m' hm'
      rw [hnames1]
      exact hsub m' (List.mem_cons_of_mem _ hm')
    obtain ⟨ih1, ih2, ih3⟩ :=
      ih (executeFilter g mgr m context_id phase).mgr context_id hsub1 hre1
    rw [runPhaseAux_cons]
    refine ⟨?_, ?_, ih3⟩
    · rw [callbackEvents_append, hev, ih1, List.map_cons]
      rfl
    · rw [ih2, hnames1]

theorem runPhase_spec (g : GuestBehaviour) (mgr : Manager) (context_id : Nat)
    {phase : String} {p : Phase}
    (hφ : phaseOfString phase = some p) (hp : p ≠ Phase.requestHeaders)
    (hre : entriesReady mgr) :
    callbackEvents (runPhase g mgr context_id phase).events =
        (getLoadedModules mgr).map (fun m => (m, p)) ∧
    getLoadedModules (runPhase g mgr context_id phase).mgr = getLoadedModules mgr ∧
    entriesReady (runPhase g mgr context_id phase).mgr := by
  unfold runPhase
  exact runPhaseAux_spec g (getLoadedModules mgr) hφ hp mgr context_id
    (fun _ hm => hm) hre

/-- Core pipeline lemma: a parsed request that is not short-circuited produces
exactly the canonical callback trace and a response. -/
theorem trace_canonical (g : GuestBehaviour) (mgr : Manager) (ctr : Nat)
    (req : List Char) (hd : HttpData)
    (hp : parse_request req = some hd)
    (hnf : entriesNonFailed mgr)
    (hcc : ∀ m ∈ getLoadedModules mgr, g.ctxCreateOk m = true)
    (hno : (onRequestHeaders_ctx g mgr (fetchAdd ctr).1 hd).hd.has_local_response = false) :
    callbackEvents (handle_client_data g mgr ctr req).events =
      canonicalTrace (getLoadedModules mgr) ∧
    (handle_client_data g mgr ctr req).response.isSome = true := by
  obtain ⟨hA1, hA2, hA3⟩ := onRequestHeaders_ready g mgr (fetchAdd ctr).1 hd hnf hcc
  obtain ⟨hB1, hB2, hB3⟩ := runPhase_spec g
    (onRequestHeaders_ctx g mgr (fetchAdd ctr).1 hd).mgr (fetchAdd ctr).1
    (show phaseOfString "onRequestBody" = some Phase.requestBody from rfl)
    (by decide) hA3
  obtain ⟨hC1, hC2, hC3⟩ := runPhase_spec g
    (runPhase g (onRequestHeaders_ctx g mgr (fetchAdd ctr).1 hd).mgr (fetchAdd ctr).1
      "onRequestBody").mgr (fetchAdd ctr).1
    (show phaseOfString "onRequestTrailers" = some Phase.requestTrailers from rfl)
    (by decide) hB3
  obtain ⟨hD1, hD2, hD3⟩ := runPhase_spec g
    (runPhase g (runPhase g (onRequestHeaders_ctx g mgr (fetchAdd ctr).1 hd).mgr
      (fetchAdd ctr).1 "onRequestBody").mgr (fetchAdd ctr).1 "onRequestTrailers").mgr
    (fetchAdd ctr).1
    (show phaseOfString "onDone" = some Phase.done from rfl)
    (by decide) hC3
  obtain ⟨hE1, hE2, hE3⟩ := runPhase_spec g
    (runPhase g (runPhase g (runPhase g
      (onRequestHeaders_ctx g mgr (fetchAdd ctr).1 hd).mgr
      (fetchAdd ctr).1 "onRequestBody").mgr (fetchAdd ctr).1 "onRequestTrailers").mgr
      (fetchAdd ctr).1 "onDone").mgr (fetchAdd ctr).1
    (show phaseOfString "onResponseHeaders" = some Phase.responseHeaders from rfl)
    (by decide) hD3
  obtain ⟨hF1, hF2, hF3⟩ := runPhase_spec g
    (runPhase g (runPhase g (runPhase g (runPhase g
      (onRequestHeaders_ctx g mgr (fetchAdd ctr).1 hd).mgr
      (fetchAdd ctr).1 "onRequestBody").mgr (fetchAdd ctr).1 "onRequestTrailers").mgr
      (fetchAdd ctr).1 "onDone").mgr (fetchAdd ctr).1 "onResponseHeaders").mgr
    (fetchAdd ctr).1
    (show phaseOfString "onResponseBody" = some Phase.responseBody from rfl)
    (by decide) hE3
  obtain ⟨hG1, hG2, hG3⟩ := runPhase_spec g
    (runPhase g (runPhase g (runPhase g (runPhase g (runPhase g
      (onRequestHeaders_ctx g mgr (fetchAdd ctr).1 hd).mgr
      (fetchAdd ctr).1 "onRequestBody").mgr (fetchAdd ctr).1 "onRequestTrailers").mgr
      (fetchAdd ctr).1 "onDone").mgr (fetchAdd ctr).1 "onResponseHeaders").mgr
      (fetchAdd ctr).1 "onResponseBody").mgr (fetchAdd ctr).1
    (show phaseOfString "onResponseTrailers" = some Phase.responseTrailers from rfl)
    (by decide) hF3
  obtain ⟨hH1, hH2, hH3⟩ := runPhase_spec g
    (runPhase g (runPhase g (runPhase g (runPhase g (runPhase g (runPhase g
      (onRequestHeaders_ctx g mgr (fetchAdd ctr).1 hd).mgr
      (fetchAdd ctr).1 "onRequestBody").mgr (fetchAdd ctr).1 "onRequestTrailers").mgr
      (fetchAdd ctr).1 "onDone").mgr (fetchAdd ctr).1 "onResponseHeaders").mgr
      (fetchAdd ctr).1 "onResponseBody").mgr (fetchAdd ctr).1 "onResponseTrailers").mgr
    (fetchAdd ctr).1
    (show phaseOfString "onDone" = some Phase.done from rfl)
    (by decide) hG3
  unfold handle_client_data
  rw [hp]
  dsimp only
  rw [if_neg (by simp [hno])]
  constructor
  · simp only [callbackEvents_append, hA1, hB1, hC1, hD1, hE1, hF1, hG1, hH1,
      hA2, hB2, hC2, hD2, hE2, hF2, hG2]
    simp [canonicalTrace, phaseSequence]
  · rfl

/-! ## Context-id counter lemmas -/

theorem counterAfter_eq (n : Nat) : counterAfter n = (1 + n) % 2^32 := by
  induction n with
  | zero => simp [counterAfter]
  | succ n ih =>
    simp only [counterAfter, fetchAdd, ih]
    omega

theorem issuedId_eq (n : Nat) : issuedId n = (1 + n) % 2^32 := by
  unfold issuedId fetchAdd
  rw [counterAfter_eq]
  omega

/-- Whenever the request parses, `handle_client_data` allocates the current
counter value as the context id and advances the counter, in both the
short-circuit and the normal branch. -/
theorem handle_client_data_ids (g : GuestBehaviour) (mgr : Manager) (ctr : Nat)
    {req : List Char} {hd : HttpData} (hp : parse_request req = some hd) :
    (handle_client_data g mgr ctr req).ctxId = some ((fetchAdd ctr).1) ∧
    (handle_client_data g mgr ctr req).ctr = (fetchAdd ctr).2 := by
  unfold handle_client_data
  rw [hp]
  dsimp only
  split <;> exact ⟨rfl, rfl⟩

/-- Every event of the `onRequestHeaders` filter-chain loop concerns the
`requestHeaders` phase. -/
theorem onRequestHeaders_ctx_events_rh (g : GuestBehaviour) (mgr : Manager)
    (context_id : Nat) (hd : HttpData) :
    ∀ e ∈ (onRequestHeaders_ctx g mgr context_id hd).events,
      (∃ m a, e = Event.callback m Phase.requestHeaders a) ∨
      (∃ m, e = Event.execError m Phase.requestHeaders) := by
  unfold onRequestHeaders_ctx
  exact rhLoopAux_events_rh g (getLoadedModules mgr) mgr context_id hd

/-! ## Claim theorems -/

/-- C1: Short-circuit law.  For every request whose `onRequestHeaders` filter
chain leaves a captured local response in the request's `HttpData`, the host
sends exactly `build_local_response` of that data (a function of the captured
status code and body alone — status line from the numeric code,
`Content-Length` equal to the body's byte length, `Connection: close`), the
request's whole event trace is the one of the `onRequestHeaders` loop, and no
callback of any later phase (`requestBody` … `done`) is invoked for any
module. -/
theorem short_circuit_law (g : GuestBehaviour) (mgr : Manager) (ctr : Nat)
    (req : List Char) (hd : HttpData)
    (hp : parse_request req = some hd)
    (hlr : (onRequestHeaders_ctx g mgr (fetchAdd ctr).1 hd).hd.has_local_response = true) :
    (handle_client_data g mgr ctr req).response =
      some (build_local_response (onRequestHeaders_ctx g mgr (fetchAdd ctr).1 hd).hd) ∧
    (handle_client_data g mgr ctr req).events =
      (onRequestHeaders_ctx g mgr (fetchAdd ctr).1 hd).events ∧
    (∀ e ∈ (handle_client_data g mgr ctr req).events,
      ∀ m p a, e = Event.callback m p a → p = Phase.requestHeaders) ∧
    (∀ hd₁ hd₂ : HttpData, hd₁.local_response_code = hd₂.local_response_code →
      hd₁.local_response_body = hd₂.local_response_body →
      build_local_response hd₁ = build_local_response hd₂) := by
  have heq : handle_client_data g mgr ctr req =
      ⟨(onRequestHeaders_ctx g mgr (fetchAdd ctr).1 hd).mgr, (fetchAdd ctr).2,
        some ((fetchAdd ctr).1),
        some (build_local_response (onRequestHeaders_ctx g mgr (fetchAdd ctr).1 hd).hd),
        (onRequestHeaders_ctx g mgr (fetchAdd ctr).1 hd).events⟩ := by
    unfold handle_client_data
    rw [hp]
    dsimp only
    rw [if_pos hlr]
  rw [heq]
  refine ⟨rfl, rfl, ?_, ?_⟩
  · intro e he m p a he2
    rcases onRequestHeaders_ctx_events_rh g mgr (fetchAdd ctr).1 hd e he with
      ⟨m', a', h⟩ | ⟨m', h⟩
    · rw [he2] at h
      simp only [Event.callback.injEq] at h
      exact h.2.1
    · rw [he2] at h
      simp at h
  · intro hd₁ hd₂ h1 h2
    unfold build_local_response
    rw [h1, h2]

/-- C2: Phase-ordering law.  For every completed request that parses, whose
modules all have a live VM and can obtain a stream context, and in which no
local response is captured by the headers loop, the guest-callback trace is
exactly the canonical one: `requestHeaders`, `requestBody`, `requestTrailers`,
the request-done `done`, `responseHeaders`, `responseBody`,
`responseTrailers`, the response-done `done` — each slot once per loaded
module, modules in listing order inside each slot — and a response is sent. -/
theorem phase_ordering_law (g : GuestBehaviour) (mgr : Manager) (ctr : Nat)
    (req : List Char) (hd : HttpData)
    (hp : parse_request req = some hd)
    (hnf : entriesNonFailed mgr)
    (hcc : ∀ m ∈ getLoadedModules mgr, g.ctxCreateOk m = true)
    (hno : (onRequestHeaders_ctx g mgr (fetchAdd ctr).1 hd).hd.has_local_response = false) :
    callbackEvents (handle_client_data g mgr ctr req).events =
      canonicalTrace (getLoadedModules mgr) ∧
    (handle_client_data g mgr ctr req).response.isSome = true :=
  trace_canonical g mgr ctr req hd hp hnf hcc hno

/-- C3: Content-Length is NOT honored for body framing (code bug): as soon as
the `\r\n\r\n` header terminator arrives, the read loop hands the buffer over
and closes the connection, before any later reads (`"he"`, `"llo"`) can
arrive; `parse_request` leaves `request_body` empty (and, for a CRLF request,
even the header map empty, so `Content-Length: 5` is never seen), and the
pipeline then runs to completion and answers with no body ever delivered to
the `requestBody` callback — instead of buffering until the announced 5 body
bytes are present and delivering `"hello"`. -/
theorem content_length_ignored :
    client_read_step [] c3Request = ConnStep.processed c3Request ∧
    (parse_request c3Request).map (fun h => h.request_body) = some "" ∧
    (parse_request c3Request).map (fun h => h.request_headers) = some [] ∧
    (handle_client_data gOk mgrF 1 c3Request).events =
      [Event.callback "f" Phase.requestHeaders 0,
       Event.callback "f" Phase.requestBody 0,
       Event.callback "f" Phase.requestTrailers 0,
       Event.callback "f" Phase.done 0,
       Event.callback "f" Phase.responseHeaders 0,
       Event.callback "f" Phase.responseBody 0,
       Event.callback "f" Phase.responseTrailers 0,
       Event.callback "f" Phase.done 0] ∧
    (handle_client_data gOk mgrF 1 c3Request).response.isSome = true := by
  decide

/-- C4: Fresh-context-per-request-id is violated (code bug): dispatching
`onRequestBody` as the first phase seen for the new request id 2, while the
module still holds request 1's stream context, creates no fresh execution
context and resets nothing — the guest callback is invoked on request 1's
context, whose id stays 1 and whose captured local response (body `"old"`)
remains visible to request 2. -/
theorem stale_context_reuse :
    (executeFilter gOk mgrStale "f" 2 "onRequestBody").ok = true ∧
    (executeFilter gOk mgrStale "f" 2 "onRequestBody").events =
      [Event.callback "f" Phase.requestBody 0] ∧
    (executeFilter gOk mgrStale "f" 2 "onRequestBody").mgr = mgrStale ∧
    hasLocalResponse (executeFilter gOk mgrStale "f" 2 "onRequestBody").mgr "f" = true ∧
    getLocalResponseBody (executeFilter gOk mgrStale "f" 2 "onRequestBody").mgr "f" =
      "old" ∧
    (mfind (executeFilter gOk mgrStale "f" 2 "onRequestBody").mgr "f").map
      (fun st => st.stream_context_id) = some 1 := by
  decide

/-- C5 counterexample: the context-id counter is a 32-bit atomic, so the id
sequence wraps: the id issued for the 2^32-1-th request is 0, smaller than
the 4294967295 issued just before it, and the 2^32-th id repeats the very
first one — the ids are not strictly increasing and are reused over an
unbounded process lifetime. -/
theorem context_id_wraparound :
    issuedId (2^32 - 2) = 4294967295 ∧
    issuedId (2^32 - 1) = 0 ∧
    issuedId (2^32 - 1) < issuedId (2^32 - 2) ∧
    issuedId (2^32) = issuedId 0 := by
  simp only [issuedId_eq]
  norm_num

/-- C5 (amended): context ids are strictly increasing and never reused as long
as fewer than 2^32 ids have been issued; the first id is 1, the second 2, and
two sequential parsed requests from a fresh start receive context ids 1 and
then 2. -/
theorem context_id_monotone :
    (∀ i j : Nat, i < j → j ≤ 2^32 - 2 → issuedId i < issuedId j) ∧
    issuedId 0 = 1 ∧ issuedId 1 = 2 ∧
    (∀ (g : GuestBehaviour) (mgr : Manager) (req : List Char) (hd : HttpData),
      parse_request req = some hd →
      (handle_client_data g mgr 1 req).ctxId = some 1 ∧
      (handle_client_data g mgr 1 req).ctr = 2 ∧
      (handle_client_data g (handle_client_data g mgr 1 req).mgr
        (handle_client_data g mgr 1 req).ctr req).ctxId = some 2) := by
  refine ⟨?_, by simp [issuedId_eq], by simp [issuedId_eq], ?_⟩
  · intro i j hij hj
    rw [issuedId_eq, issuedId_eq]
    have h1 : 1 + i < 2^32 := by omega
    have h2 : 1 + j < 2^32 := by omega
    rw [Nat.mod_eq_of_lt h1, Nat.mod_eq_of_lt h2]
    omega
  · intro g mgr req hd hp
    obtain ⟨hi1, hc1⟩ := handle_client_data_ids g mgr 1 hp
    obtain ⟨hi2, hc2⟩ :=
      handle_client_data_ids g (handle_client_data g mgr 1 req).mgr 2 hp
    have f11 : (fetchAdd 1).1 = 1 := by norm_num [fetchAdd]
    have f12 : (fetchAdd 1).2 = 2 := by norm_num [fetchAdd]
    have f21 : (fetchAdd 2).1 = 2 := by norm_num [fetchAdd]
    refine ⟨by rw [hi1, f11], by rw [hc1, f12], ?_⟩
    rw [hc1, f12, hi2, f21]

/-- C6: Duplicate-name load.  A `loadModuleFromMemory` under a name already
present fails and leaves the registry — hence the first module and its
dispatchability — completely unchanged; a load under a fresh name whose
external steps all succeed returns success, after which the name is
immediately listed, found by lookup with a fresh module state, and a
`requestHeaders` dispatch reaches the guest callback. -/
theorem load_duplicate_name (mgr : Manager) (name : String) (oc : LoadOutcome) :
    (∀ st, mfind mgr name = some st → loadModuleFromMemory mgr name oc = (mgr, false)) ∧
    (mfind mgr name = none → oc.loadOk = true → oc.initOk = true → oc.startOk = true →
      oc.configureOk = true →
      (loadModuleFromMemory mgr name oc).2 = true ∧
      name ∈ getLoadedModules (loadModuleFromMemory mgr name oc).1 ∧
      mfind (loadModuleFromMemory mgr name oc).1 name = some freshModuleState ∧
      (∀ (g : GuestBehaviour) (context_id : Nat), g.ctxCreateOk name = true →
        Event.callback name Phase.requestHeaders 0 ∈
          (executeFilter g (loadModuleFromMemory mgr name oc).1 name context_id
            "onRequestHeaders").events)) := by
  constructor
  · intro st h
    unfold loadModuleFromMemory
    rw [h]
    rfl
  · intro h hl hi hs hc
    have hload : loadModuleFromMemory mgr name oc =
        (insertSorted mgr name freshModuleState, true) := by
      unfold loadModuleFromMemory
      rw [h, hl, hi, hs, hc]
      rfl
    have hm : mfind (insertSorted mgr name freshModuleState) name =
        some freshModuleState := mfind_insertSorted_self freshModuleState h
    rw [hload]
    refine ⟨rfl, mfind_some_mem_names hm, hm, ?_⟩
    intro g context_id hcc
    rw [executeFilter_rh_create hm rfl
      (show phaseOfString "onRequestHeaders" = some Phase.requestHeaders from rfl)
      (Or.inl rfl) hcc]
    cases hgc : g.callback name Phase.requestHeaders 0
        (StreamCtx.resetLocalResponse freshStreamCtx) with
    | ok c' => rw [invokeCallback_ctx_ok rfl hgc]; simp
    | trap c' => rw [invokeCallback_ctx_trap rfl hgc]; simp

/-- C7: Trap containment and fail-open.  A guest trap in a phase callback —
in any recognized phase: a non-headers phase on the current context, a
`requestHeaders` callback on the reused matching context, or a
`requestHeaders` callback on the freshly created context — is caught at the
dispatch boundary: `executeFilter` returns `false`, records the callback plus
an explicit execution-error event, and leaves the module listing intact; and
a module whose callbacks always trap does not abort the request — the
pipeline still runs every phase for every module (as long as the VMs keep
reporting non-failed) and still produces a response. -/
theorem guest_trap_contained :
    (∀ (g : GuestBehaviour) (mgr : Manager) (m : String) (context_id : Nat)
        (phase : String) (p : Phase) (st : ModuleState) (c c' : StreamCtx),
      mfind mgr m = some st → st.failed = false →
      phaseOfString phase = some p → p ≠ Phase.requestHeaders →
      st.stream_context = some c →
      g.callback m p 0 c = GuestStep.trap c' →
      (executeFilter g mgr m context_id phase).ok = false ∧
      (executeFilter g mgr m context_id phase).events =
        [Event.callback m p 0, Event.execError m p] ∧
      getLoadedModules (executeFilter g mgr m context_id phase).mgr =
        getLoadedModules mgr) ∧
    (∀ (g : GuestBehaviour) (mgr : Manager) (m : String) (context_id : Nat)
        (phase : String) (st : ModuleState) (c c' : StreamCtx),
      mfind mgr m = some st → st.failed = false →
      phaseOfString phase = some Phase.requestHeaders →
      st.stream_context = some c → st.stream_context_id = context_id →
      g.callback m Phase.requestHeaders 0 c = GuestStep.trap c' →
      (executeFilter g mgr m context_id phase).ok = false ∧
      (executeFilter g mgr m context_id phase).events =
        [Event.callback m Phase.requestHeaders 0,
         Event.execError m Phase.requestHeaders] ∧
      getLoadedModules (executeFilter g mgr m context_id phase).mgr =
        getLoadedModules mgr) ∧
    (∀ (g : GuestBehaviour) (mgr : Manager) (m : String) (context_id : Nat)
        (phase : String) (st : ModuleState) (c' : StreamCtx),
      mfind mgr m = some st → st.failed = false →
      phaseOfString phase = some Phase.requestHeaders →
      (st.stream_context = none ∨ st.stream_context_id ≠ context_id) →
      g.ctxCreateOk m = true →
      g.callback m Phase.requestHeaders 0
          (StreamCtx.resetLocalResponse freshStreamCtx) = GuestStep.trap c' →
      (executeFilter g mgr m context_id phase).ok = false ∧
      (executeFilter g mgr m context_id phase).events =
        [Event.callback m Phase.requestHeaders 0,
         Event.execError m Phase.requestHeaders] ∧
      getLoadedModules (executeFilter g mgr m context_id phase).mgr =
        getLoadedModules mgr) ∧
    (∀ (g : GuestBehaviour) (mgr : Manager) (ctr : Nat) (req : List Char)
        (hd : HttpData) (m₀ : String),
      m₀ ∈ getLoadedModules mgr →
      (∀ p a c, ∃ c', g.callback m₀ p a c = GuestStep.trap c') →
      parse_request req = some hd →
      entriesNonFailed mgr →
      (∀ m ∈ getLoadedModules mgr, g.ctxCreateOk m = true) →
      (onRequestHeaders_ctx g mgr (fetchAdd ctr).1 hd).hd.has_local_response = false →
      callbackEvents (handle_client_data g mgr ctr req).events =
        canonicalTrace (getLoadedModules mgr) ∧
      (handle_client_data g mgr ctr req).response.isSome = true) := by
  refine ⟨?_, ?_, ?_, ?_⟩
  · intro g mgr m context_id phase p st c c' h1 h2 hφ hp hs hgc
    rw [executeFilter_nonrh h1 h2 hφ hp hs, invokeCallback_ctx_trap hs hgc]
    exact ⟨rfl, rfl, getLoadedModules_setState mgr m _⟩
  · intro g mgr m context_id phase st c c' h1 h2 hφ hs hid hgc
    have hcond : ¬(st.stream_context = none ∨ st.stream_context_id ≠ context_id) := by
      rw [hs, hid]
      simp
    rw [executeFilter_rh_reuse h1 h2 hφ hcond, invokeCallback_ctx_trap hs hgc]
    exact ⟨rfl, rfl, getLoadedModules_setState mgr m _⟩
  · intro g mgr m context_id phase st c' h1 h2 hφ hcond hcc hgc
    rw [executeFilter_rh_create h1 h2 hφ hcond hcc, invokeCallback_ctx_trap rfl hgc]
    refine ⟨rfl, rfl, ?_⟩
    rw [getLoadedModules_setState, getLoadedModules_setState]
  · intro g mgr ctr req hd m₀ _ _ hp hnf hcc hno
    exact trace_canonical g mgr ctr req hd hp hnf hcc hno

/-- C8: Unknown-phase outcome.  Dispatching an unrecognized phase identifier
on a loaded, non-failed module returns success without invoking any guest
callback or changing any state, and records the explicit unknown-phase
diagnostic. -/
theorem unknown_phase_diagnostic (g : GuestBehaviour) (mgr : Manager) (m : String)
    (context_id : Nat) (phase : String) (st : ModuleState)
    (h1 : mfind mgr m = some st) (h2 : st.failed = false)
    (h3 : phaseOfString phase = none) :
    executeFilter g mgr m context_id phase = ⟨mgr, true, [Event.unknownPhase phase]⟩ :=
  executeFilter_unknown h1 h2 h3

/-- C9: A recognized non-headers phase dispatched to a loaded, non-failed
module that has no current stream context is a successful no-op: no guest
callback runs, the registry is unchanged, and the call returns `true`. -/
theorem phase_without_context_noop (g : GuestBehaviour) (mgr : Manager) (m : String)
    (context_id : Nat) (phase : String) (st : ModuleState) (p : Phase)
    (h1 : mfind mgr m = some st) (h2 : st.failed = false)
    (h3 : st.stream_context = none)
    (h4 : phaseOfString phase = some p) (h5 : p ≠ Phase.requestHeaders) :
    executeFilter g mgr m context_id phase = ⟨mgr, true, []⟩ :=
  executeFilter_nonrh_none h1 h2 h4 h5 h3

/-- C10: The local-response accessors are total with neutral defaults: for a
name not in the registry, or one whose module has no stream context,
`getLocalResponseBody` returns `""`, `getLocalResponseCode` returns `0` and
`hasLocalResponse` returns `false` (they are pure functions of the registry
and never fail or mutate it). -/
theorem local_response_accessors_total (mgr : Manager) (m : String) :
    (mfind mgr m = none →
      getLocalResponseBody mgr m = "" ∧ getLocalResponseCode mgr m = 0 ∧
      hasLocalResponse mgr m = false) ∧
    (∀ st, mfind mgr m = some st → st.stream_context = none →
      getLocalResponseBody mgr m = "" ∧ getLocalResponseCode mgr m = 0 ∧
      hasLocalResponse mgr m = false) := by
  constructor
  · intro h
    refine ⟨?_, ?_, ?_⟩ <;>
      simp [getLocalResponseBody, getLocalResponseCode, hasLocalResponse, h]
  · intro st h hs
    refine ⟨?_, ?_, ?_⟩ <;>
      simp [getLocalResponseBody, getLocalResponseCode, hasLocalResponse, h, hs]

/-! ## Witnesses -/

/-- C1 witness: the `echo` guest that sends `sendLocalResponse(200, "hello")`
from `onRequestHeaders` short-circuits a concrete request. -/
theorem short_circuit_law_witness :
    parse_request reqDemo = some hdDemo ∧
    (onRequestHeaders_ctx gLocal mgrF (fetchAdd 1).1 hdDemo).hd.has_local_response =
      true ∧
    (handle_client_data gLocal mgrF 1 reqDemo).response =
      some (build_local_response
        (onRequestHeaders_ctx gLocal mgrF (fetchAdd 1).1 hdDemo).hd) :=
  ⟨by decide, by decide,
   (short_circuit_law gLocal mgrF 1 reqDemo hdDemo (by decide) (by decide)).1⟩

/-- C2 witness: a concrete two-module registry yields exactly the canonical
16-slot trace. -/
theorem phase_ordering_law_witness :
    entriesNonFailed mgrAB ∧
    callbackEvents (handle_client_data gOk mgrAB 1 reqDemo).events =
      canonicalTrace (getLoadedModules mgrAB) :=
  ⟨by decide,
   (phase_ordering_law gOk mgrAB 1 reqDemo hdDemo (by decide) (by decide)
     (by decide) (by decide)).1⟩

/-- C5 witness: the monotonicity theorem instantiated at the first two ids and
at two concrete sequential requests. -/
theorem context_id_monotone_witness :
    issuedId 0 < issuedId 1 ∧
    (handle_client_data gOk mgrF 1 reqDemo).ctxId = some 1 ∧
    (handle_client_data gOk (handle_client_data gOk mgrF 1 reqDemo).mgr
      (handle_client_data gOk mgrF 1 reqDemo).ctr reqDemo).ctxId = some 2 :=
  ⟨context_id_monotone.1 0 1 (by norm_num) (by norm_num),
   (context_id_monotone.2.2.2 gOk mgrF reqDemo hdDemo (by decide)).1,
   (context_id_monotone.2.2.2 gOk mgrF reqDemo hdDemo (by decide)).2.2⟩

/-- C6 witness: re-loading `"f"` into a registry that already has it fails and
leaves the registry unchanged; loading `"f"` into an empty registry succeeds
and lists it. -/
theorem load_duplicate_name_witness :
    loadModuleFromMemory mgrF "f" ocAll = (mgrF, false) ∧
    (loadModuleFromMemory [] "f" ocAll).2 = true ∧
    "f" ∈ getLoadedModules (loadModuleFromMemory [] "f" ocAll).1 :=
  ⟨(load_duplicate_name mgrF "f" ocAll).1 freshModuleState (by decide),
   ((load_duplicate_name [] "f" ocAll).2 (by decide) rfl rfl rfl rfl).1,
   ((load_duplicate_name [] "f" ocAll).2 (by decide) rfl rfl rfl rfl).2.1⟩

/-- C7 witness: a trapping callback on a concrete module returns `false` at
the dispatch boundary — in a body phase, in a `requestHeaders` phase reusing
the matching context, and in a `requestHeaders` phase on a freshly created
context — and an always-trapping module `"a"` still leaves the full canonical
trace of a two-module pipeline. -/
theorem guest_trap_contained_witness :
    (executeFilter gTrapA [("a", readyState)] "a" 1 "onRequestBody").ok = false ∧
    (executeFilter gTrapA [("a", readyState)] "a" 1 "onRequestHeaders").ok = false ∧
    (executeFilter gTrapA mgrAB "a" 1 "onRequestHeaders").ok = false ∧
    callbackEvents (handle_client_data gTrapA mgrAB 1 reqDemo).events =
      canonicalTrace (getLoadedModules mgrAB) :=
  ⟨(guest_trap_contained.1 gTrapA [("a", readyState)] "a" 1 "onRequestBody"
      Phase.requestBody readyState freshStreamCtx freshStreamCtx (by decide)
      (by decide) (by decide) (by decide) (by decide) (by decide)).1,
   (guest_trap_contained.2.1 gTrapA [("a", readyState)] "a" 1 "onRequestHeaders"
      readyState freshStreamCtx freshStreamCtx (by decide) (by decide) (by decide)
      (by decide) (by decide) (by decide)).1,
   (guest_trap_contained.2.2.1 gTrapA mgrAB "a" 1 "onRequestHeaders"
      freshModuleState (StreamCtx.resetLocalResponse freshStreamCtx) (by decide)
      (by decide) (by decide) (Or.inl (by decide)) (by decide) (by decide)).1,
   (guest_trap_contained.2.2.2 gTrapA mgrAB 1 reqDemo hdDemo "a" (by decide)
      (fun p a c => ⟨c, rfl⟩) (by decide) (by decide) (by decide) (by decide)).1⟩

/-- C8 witness: `onBogusPhase` on the loaded module `"f"`. -/
theorem unknown_phase_diagnostic_witness :
    executeFilter gOk mgrF "f" 7 "onBogusPhase" =
      ⟨mgrF, true, [Event.unknownPhase "onBogusPhase"]⟩ :=
  unknown_phase_diagnostic gOk mgrF "f" 7 "onBogusPhase" freshModuleState
    (by decide) (by decide) (by decide)

/-- C9 witness: `onResponseBody` on the freshly loaded module `"f"`, which has
no stream context yet. -/
theorem phase_without_context_noop_witness :
    executeFilter gOk mgrF "f" 5 "onResponseBody" = ⟨mgrF, true, []⟩ :=
  phase_without_context_noop gOk mgrF "f" 5 "onResponseBody" freshModuleState
    Phase.responseBody (by decide) (by decide) (by decide) (by decide) (by decide)

/-- C10 witness: the accessors on an unknown name and on a module with no
stream context. -/
theorem local_response_accessors_total_witness :
    (getLocalResponseBody [] "g" = "" ∧ getLocalResponseCode [] "g" = 0 ∧
      hasLocalResponse [] "g" = false) ∧
    (getLocalResponseBody mgrF "f" = "" ∧ getLocalResponseCode mgrF "f" = 0 ∧
      hasLocalResponse mgrF "f" = false) :=
  ⟨(local_response_accessors_total [] "g").1 (by decide),
   (local_response_accessors_total mgrF "f").2 freshModuleState (by decide)
     (by decide)⟩
